import Mathlib

/-!
Shallow embedding of the e2b MCP server (TypeScript) for specification
checking.  The definitions below are transcribed from the repository
sources: `packages/js/src/index.ts` (the standalone server with the
session map, sweep, and per-tool branches), the `ToolHandler` subclasses
(`UploadFileTool`, `DownloadFileTool`, `ExecuteCommandTool`,
`ReadFileTool`), and `packages/js/src/error-handler.ts`.  External
collaborators (the E2B sandbox client, Node `fs`, Node `path`) are
modelled as explicit oracle parameters; Node `path` posix behaviour is
implemented concretely for evaluating examples.
-/

namespace MCP

/-- JS thrown values: `isError` models `instanceof Error`, `message`
the error message (for non-Error throws, `String(value)`). -/
structure JSError where
  isError : Bool
  message : String
deriving DecidableEq, Repr

/-- Builds an `Error` value (`new Error(msg)`). -/
def jsError (msg : String) : JSError := ⟨true, msg⟩

/-- Occurrence test for a character-list needle inside a haystack. -/
def containsSub : List Char → List Char → Bool
  | [], sub => sub.isEmpty
  | l@(_ :: xs), sub => sub.isPrefixOf l || containsSub xs sub

/-- Model of JS `String.prototype.includes`. -/
def jsIncludes (s sub : String) : Bool :=
  containsSub s.data sub.data

/-- Model of JS `String.prototype.startsWith`. -/
def jsStartsWith (s p : String) : Bool :=
  p.data.isPrefixOf s.data

/-- Model of JS `String.prototype.endsWith`. -/
def jsEndsWith (s p : String) : Bool :=
  p.data.isSuffixOf s.data

/-- Splits a character list at every occurrence of the separator
character; never returns the empty list. -/
def splitChar (c : Char) : List Char → List (List Char)
  | [] => [[]]
  | x :: xs =>
    match splitChar c xs with
    | [] => [[x]]
    | g :: gs => if x = c then [] :: g :: gs else (x :: g) :: gs

/-- Model of JS `String.prototype.split` with a one-character separator
(the only shape used by the server: commas and slashes). -/
def jsSplitChar (s : String) (c : Char) : List String :=
  (splitChar c s.data).map String.mk

/-- Joins string segments with a separator (model of `Array.join` /
`path` internal joining). -/
def joinSep (sep : String) : List String → String
  | [] => ""
  | [g] => g
  | g :: gs => g ++ sep ++ joinSep sep gs

/-- Model of the Node `path` module surface used by the tools. -/
structure PathLib where
  normalize : String → String
  basename : String → String
  dirname : String → String
  sep : String

/-- Segment resolution of Node `path.posix.normalize`: drops empty and
`.` segments, resolves `..` against the accumulated stack;
`allowAbove` keeps leading `..` segments (relative paths). -/
def normSegs (allowAbove : Bool) (acc : List String) : List String → List String
  | [] => acc.reverse
  | s :: rest =>
    if s = "" || s = "." then normSegs allowAbove acc rest
    else if s = ".." then
      match acc with
      | t :: acc2 =>
        if t = ".." then normSegs allowAbove (s :: acc) rest
        else normSegs allowAbove acc2 rest
      | [] => if allowAbove then normSegs allowAbove [s] rest else normSegs allowAbove [] rest
    else normSegs allowAbove (s :: acc) rest

/-- Node `path.posix.normalize`. -/
def posixNormalize (p : String) : String :=
  if p = "" then "."
  else
    let isAbs := jsStartsWith p "/"
    let hasTrail := jsEndsWith p "/"
    let core := joinSep "/" (normSegs (!isAbs) [] (jsSplitChar p '/'))
    let core := if core = "" && !isAbs then "." else core
    let core := if core ≠ "" && hasTrail then core ++ "/" else core
    if isAbs then "/" ++ core else core

/-- Node `path.posix.basename` (no extension argument). -/
def posixBasename (p : String) : String :=
  match ((jsSplitChar p '/').filter (· ≠ "")).getLast? with
  | some s => s
  | none => ""

/-- Node `path.posix.dirname`. -/
def posixDirname (p : String) : String :=
  if p = "" then "."
  else
    let isAbs := jsStartsWith p "/"
    let segs := (jsSplitChar p '/').filter (· ≠ "")
    match segs with
    | [] => if isAbs then "/" else "."
    | [_] => if isAbs then "/" else "."
    | _ => (if isAbs then "/" else "") ++ joinSep "/" segs.dropLast

/-- Concrete posix instance of the path library. -/
def posixPath : PathLib := ⟨posixNormalize, posixBasename, posixDirname, "/"⟩

/-- Model of `process.env.VAR?.split(',') || []`: an unset variable
gives the empty list, a set variable is split on commas. -/
def splitAllowed : Option String → List String
  | none => []
  | some s => jsSplitChar s ','

/-- The allow-list containment check shared by `UploadFileTool` and
`DownloadFileTool`: the normalized candidate equals a normalized
allowed path, or starts with it followed by the path separator. -/
def isPathAllowed (P : PathLib) (allowedPaths : List String) (normalizedPath : String) : Bool :=
  allowedPaths.any fun allowedPath =>
    normalizedPath == P.normalize allowedPath ||
      jsStartsWith normalizedPath (P.normalize allowedPath ++ P.sep)

/-- One entry of the session map: the remote sandbox handle (opaque,
modelled as a natural) and the last-access timestamp. -/
structure Session where
  sandbox : Nat
  lastAccessed : Int
deriving DecidableEq, Repr

/-- Server state: the session map (`Map<string, {sandbox, lastAccessed}>`,
modelled as an association list with unique keys in insertion order)
and a fresh-handle supply standing for `Sandbox.create()` producing a
new remote sandbox each time. -/
structure ServerState where
  sessions : List (String × Session)
  nextHandle : Nat
deriving DecidableEq, Repr

/-- The state of a freshly started server. -/
def emptyState : ServerState := ⟨[], 0⟩

/-- JS `Map.prototype.get` on the association-list model. -/
def mapGet : List (String × Session) → String → Option Session
  | [], _ => none
  | e :: rest, k => if e.1 = k then some e.2 else mapGet rest k

/-- JS `Map.prototype.set`: update in place if the key is present,
otherwise append. -/
def mapSet : List (String × Session) → String → Session → List (String × Session)
  | [], k, v => [(k, v)]
  | e :: rest, k, v => if e.1 = k then (k, v) :: rest else e :: mapSet rest k v

/-- Observable effects of a tool body on the outside world, recorded in
order of occurrence. -/
inductive Effect where
  | localRead (path : String)
  | localAccess (path : String)
  | localMkdir (path : String)
  | localWrite (path : String) (content : String)
  | sandboxCreate
  | sandboxRead (path : String)
  | sandboxWrite (path : String) (content : String)
  | runCommand (background : Bool) (command : String)
deriving DecidableEq, Repr

/-- The create-and-store arm of `getSandbox`: `Sandbox.create()` yields a
fresh handle which is stored under `newSessionId` with the current
time. -/
def createSession (now : Int) (newSessionId : String) (st : ServerState) :
    (Nat × String) × ServerState × List Effect :=
  ((st.nextHandle, newSessionId),
   ⟨mapSet st.sessions newSessionId ⟨st.nextHandle, now⟩, st.nextHandle + 1⟩,
   [Effect.sandboxCreate])

/-- `E2BServer.getSandbox`: if a truthy `sessionId` names a live session,
return its handle and touch `lastAccessed`; otherwise create a sandbox
under the supplied id, or under `sess_` plus a random suffix when the
supplied id is absent or empty (JS falsy). -/
def getSandbox (now : Int) (fresh : String) (st : ServerState) (sessionId : Option String) :
    (Nat × String) × ServerState × List Effect :=
  match sessionId with
  | some sid =>
    if sid = "" then createSession now ("sess_" ++ fresh) st
    else
      match mapGet st.sessions sid with
      | some session =>
        ((session.sandbox, sid),
         ⟨mapSet st.sessions sid ⟨session.sandbox, now⟩, st.nextHandle⟩,
         [])
      | none => createSession now sid st
  | none => createSession now ("sess_" ++ fresh) st

/-- Idle threshold of the session sweeper (30 minutes, from
`SESSION_TIMEOUT` in `index.ts`). -/
def SESSION_TIMEOUT : Int := 30 * 60 * 1000

/-- Period of the cleanup interval (5 minutes, from
`setupSessionCleanup` in `index.ts`). -/
def CLEANUP_INTERVAL_MS : Int := 5 * 60 * 1000

/-- The expiry test of the sweep loop: `now - session.lastAccessed >
SESSION_TIMEOUT`. -/
def sessionExpired (now : Int) (s : Session) : Bool :=
  decide (now - s.lastAccessed > SESSION_TIMEOUT)

/-- One pass of `setupSessionCleanup`: iterate the entries, delete every
expired session and log its eviction, keep the rest.  Returns the
surviving map and the eviction log in iteration order. -/
def sweep (now : Int) : List (String × Session) → List (String × Session) × List String
  | [] => ([], [])
  | e :: rest =>
    let r := sweep now rest
    if sessionExpired now e.2 then
      (r.1, ("Session " ++ e.1 ++ " expired and cleaned up") :: r.2)
    else
      (e :: r.1, r.2)

/-- Parsed arguments of `upload_file` (post zod validation; `overwrite`
already carries its schema default `true`). -/
structure UploadArgs where
  local_path : String
  sandbox_path : Option String
  overwrite : Bool
  session_id : Option String
deriving DecidableEq, Repr

/-- Zod default application for the upload schema field
`overwrite: z.boolean().optional().default(true)`. -/
def uploadParseOverwrite : Option Bool → Bool
  | none => true
  | some b => b

/-- Zod default application for the download schema field
`overwrite: z.boolean().optional().default(false)`. -/
def downloadParseOverwrite : Option Bool → Bool
  | none => false
  | some b => b

/-- External collaborators of `UploadFileTool.execute`: the configured
upload allow-list variable, the local `fs.readFile`, and the remote
`sandbox.files.read` used as the existence probe. -/
structure UploadEnv where
  allowedUploadPaths : Option String
  readLocalFile : String → Except JSError String
  sandboxReadFile : String → Except JSError String

/-- Success payload of `upload_file`. -/
structure UploadResponse where
  status : String
  local_path : String
  sandbox_path : String
  session_id : String
deriving DecidableEq, Repr

/-- Sentinel and default resolution of `sandbox_path` in
`UploadFileTool.execute`: the literal string `"null"` becomes null, the
literal `"\"\""` becomes the empty string, and any falsy result
(null, undefined, empty) is replaced by the base filename of
`local_path`. -/
def resolveSandboxPath (P : PathLib) (sandbox_path : Option String) (local_path : String) : String :=
  let sp0 : Option String :=
    if sandbox_path = some "null" then none
    else if sandbox_path = some "\"\"" then some ""
    else sandbox_path
  match sp0 with
  | none => P.basename local_path
  | some s => if s = "" then P.basename local_path else s

/-- The manufactured error message for an existing upload target. -/
def uploadExistsMsg (sandboxPath : String) : String :=
  "File already exists at " ++ sandboxPath ++ " and overwrite is set to false"

/-- `UploadFileTool.execute`: sentinel resolution, allow-list gate,
local read, sandbox resolution, optional existence probe whose catch
swallows not-found-shaped errors, then the remote write. -/
def uploadFileExecute (P : PathLib) (env : UploadEnv) (now : Int) (fresh : String)
    (st : ServerState) (args : UploadArgs) :
    Except JSError UploadResponse × ServerState × List Effect :=
  let sandboxPath := resolveSandboxPath P args.sandbox_path args.local_path
  let allowedPaths := splitAllowed env.allowedUploadPaths
  if allowedPaths.length = 0 then
    (.error (jsError "No allowed upload paths configured. Set E2B_ALLOWED_UPLOAD_PATHS environment variable."),
     st, [])
  else
    let normalizedPath := P.normalize args.local_path
    if ¬ isPathAllowed P allowedPaths normalizedPath then
      (.error (jsError ("Access denied: " ++ args.local_path ++ " is not in allowed upload paths")),
       st, [])
    else
      match env.readLocalFile normalizedPath with
      | .error e => (.error e, st, [Effect.localRead normalizedPath])
      | .ok fileContent =>
        let r := getSandbox now fresh st args.session_id
        let sessionId := r.1.2
        let st1 := r.2.1
        let effs := Effect.localRead normalizedPath :: r.2.2
        if args.overwrite = false then
          let caught : JSError :=
            match env.sandboxReadFile sandboxPath with
            | .ok _ => jsError (uploadExistsMsg sandboxPath)
            | .error e => e
          if caught.isError && jsIncludes caught.message "not found" then
            (.ok ⟨"File uploaded successfully", normalizedPath, sandboxPath, sessionId⟩,
             st1, effs ++ [Effect.sandboxRead sandboxPath, Effect.sandboxWrite sandboxPath fileContent])
          else
            (.error caught, st1, effs ++ [Effect.sandboxRead sandboxPath])
        else
          (.ok ⟨"File uploaded successfully", normalizedPath, sandboxPath, sessionId⟩,
           st1, effs ++ [Effect.sandboxWrite sandboxPath fileContent])

/-- Parsed arguments of `download_file` (post zod validation; `overwrite`
already carries its schema default `false`). -/
structure DownloadArgs where
  sandbox_path : String
  local_path : String
  overwrite : Bool
  session_id : Option String
deriving DecidableEq, Repr

/-- External collaborators of `DownloadFileTool.execute`: the configured
download allow-list variable, the local `fs.access` existence probe,
and the remote byte read `sandbox.files.read(path, {format: bytes})`. -/
structure DownloadEnv where
  allowedDownloadPaths : Option String
  accessLocalFile : String → Except JSError Unit
  sandboxReadBytes : String → Except JSError String

/-- Success payload of `download_file`. -/
structure DownloadResponse where
  status : String
  sandbox_path : String
  local_path : String
  session_id : String
deriving DecidableEq, Repr

/-- The manufactured error message for an existing download target. -/
def downloadExistsMsg (normalizedPath : String) : String :=
  "File already exists at " ++ normalizedPath ++ " and overwrite is set to false"

/-- `DownloadFileTool.execute`: allow-list gate on the local target,
optional local existence probe whose catch swallows ENOENT-shaped
errors, sandbox resolution, remote byte read, recursive mkdir of the
parent, and the local write. -/
def downloadFileExecute (P : PathLib) (env : DownloadEnv) (now : Int) (fresh : String)
    (st : ServerState) (args : DownloadArgs) :
    Except JSError DownloadResponse × ServerState × List Effect :=
  let allowedPaths := splitAllowed env.allowedDownloadPaths
  if allowedPaths.length = 0 then
    (.error (jsError "No allowed download paths configured. Set E2B_ALLOWED_PATHS environment variable."),
     st, [])
  else
    let normalizedPath := P.normalize args.local_path
    if ¬ isPathAllowed P allowedPaths normalizedPath then
      (.error (jsError ("Access denied: " ++ args.local_path ++ " is not in allowed download paths")),
       st, [])
    else
      let proceed : List Effect → Except JSError DownloadResponse × ServerState × List Effect :=
        fun effs0 =>
          let r := getSandbox now fresh st args.session_id
          let sessionId := r.1.2
          let st1 := r.2.1
          match env.sandboxReadBytes args.sandbox_path with
          | .error e => (.error e, st1, effs0 ++ r.2.2 ++ [Effect.sandboxRead args.sandbox_path])
          | .ok fileContent =>
            (.ok ⟨"File downloaded successfully", args.sandbox_path, normalizedPath, sessionId⟩,
             st1,
             effs0 ++ r.2.2 ++
               [Effect.sandboxRead args.sandbox_path,
                Effect.localMkdir (P.dirname normalizedPath),
                Effect.localWrite normalizedPath fileContent])
      if args.overwrite = false then
        let caught : JSError :=
          match env.accessLocalFile normalizedPath with
          | .ok _ => jsError (downloadExistsMsg normalizedPath)
          | .error e => e
        if caught.isError && jsIncludes caught.message "ENOENT" then
          proceed [Effect.localAccess normalizedPath]
        else
          (.error caught, st, [Effect.localAccess normalizedPath])
      else
        proceed []

/-- MCP `ErrorCode.InternalError`. -/
def errorCodeInternalError : Int := -32603

/-- MCP `ErrorCode.MethodNotFound`. -/
def errorCodeMethodNotFound : Int := -32601

/-- The response envelope a tool branch returns to the transport: the
flat union of the JSON bodies produced by the branches in `index.ts`
(absent JSON keys are `none`; an absent `isError` key is `false`). -/
structure Envelope where
  isError : Bool := false
  errCode : Option Int := none
  errMessage : Option String := none
  status : Option String := none
  pid : Option Nat := none
  stdout : Option String := none
  stderr : Option String := none
  content : Option String := none
  session_id : Option String := none
deriving DecidableEq, Repr

/-- `ErrorHandler.handle` from `error-handler.ts`: logs and converts any
thrown failure into an `isError` envelope with the `InternalError`
code; it does not carry a session id. -/
def errorHandlerHandle (e : JSError) : Envelope :=
  { isError := true, errCode := some errorCodeInternalError,
    errMessage := some ("Tool execution failed: " ++ e.message) }

/-- Parsed arguments of the `execute_command` branch of `index.ts`. -/
structure CommandArgs where
  command : String
  cwd : Option String
  envs : List (String × String)
  timeoutMs : Option Int
  background : Option Bool
  session_id : Option String
deriving DecidableEq, Repr

/-- Options passed to the remote `sandbox.commands.run`. -/
structure RunOpts where
  cwd : Option String
  envs : List (String × String)
  timeoutMs : Int
  background : Bool
deriving DecidableEq, Repr

/-- Result object of a `sandbox.commands.run` call: for a background
start only `pid` is meaningful, for a foreground run the captured
`stdout` and `stderr`. -/
structure CommandResult where
  stdout : String
  stderr : String
  pid : Nat
deriving DecidableEq, Repr

/-- The `execute_command` branch of the `CallTool` handler in
`index.ts`: resolve the sandbox, run the command with `background`
taken from the arguments (default false, default timeout 60000 ms), and
shape the response; the catch branch returns a plain
`{error, stack}` body with no `isError` flag, no error code and no
session id. -/
def executeCommandBranch (runner : RunOpts → String → Except JSError CommandResult)
    (now : Int) (fresh : String) (st : ServerState) (args : CommandArgs) :
    Envelope × ServerState × List Effect :=
  let r := getSandbox now fresh st args.session_id
  let sessionId := r.1.2
  let st1 := r.2.1
  let bg := args.background.getD false
  let opts : RunOpts := ⟨args.cwd, args.envs, args.timeoutMs.getD 60000, bg⟩
  let effs := r.2.2 ++ [Effect.runCommand bg args.command]
  if bg then
    match runner opts args.command with
    | .ok result =>
      ({ status := some "Command started in background", pid := some result.pid,
         session_id := some sessionId }, st1, effs)
    | .error e => ({ errMessage := some e.message }, st1, effs)
  else
    match runner opts args.command with
    | .ok result =>
      ({ stdout := some result.stdout, stderr := some result.stderr,
         session_id := some sessionId }, st1, effs)
    | .error e => ({ errMessage := some e.message }, st1, effs)

/-- Parsed arguments of the `read_file` branch. -/
structure ReadFileArgs where
  path : String
  session_id : Option String
deriving DecidableEq, Repr

/-- The `read_file` branch of the `CallTool` handler in `index.ts`: its
catch branch returns an `isError` envelope with the `InternalError`
code and echoes the raw `session_id` argument. -/
def readFileBranch (filesRead : String → Except JSError String)
    (now : Int) (fresh : String) (st : ServerState) (args : ReadFileArgs) :
    Envelope × ServerState × List Effect :=
  let r := getSandbox now fresh st args.session_id
  let sessionId := r.1.2
  let st1 := r.2.1
  let effs := r.2.2 ++ [Effect.sandboxRead args.path]
  match filesRead args.path with
  | .ok c => ({ content := some c, session_id := some sessionId }, st1, effs)
  | .error e =>
    ({ isError := true, errCode := some errorCodeInternalError,
       errMessage := some ("Tool execution failed: " ++ e.message),
       session_id := args.session_id }, st1, effs)

/-- Outcome of the remote command runner as seen by
`ExecuteCommandTool.execute`: success, a `CommandExitError` carrying
the exit code and captured output, or some other thrown value. -/
inductive RunOutcome where
  | success (r : CommandResult)
  | exitErr (exitCode : Int) (stdout stderr : String) (stack : String)
  | otherErr (e : JSError)
deriving DecidableEq, Repr

/-- The structured body serialized into the wrapped failure thrown on a
non-zero exit. -/
structure CmdFailureBody where
  code : String
  exitCode : Int
  stdout : String
  stderr : String
  message : String
deriving DecidableEq, Repr

/-- Errors thrown out of a tool body: a plain JS error, or the wrapped
command failure (an `Error` whose message is the JSON serialization of
the body, keeping the original stack). -/
inductive ToolError where
  | js (e : JSError)
  | commandFailed (b : CmdFailureBody) (stack : String)
deriving DecidableEq, Repr

/-- Parsed arguments of the foreground-only `ExecuteCommandTool` variant
(its schema has no `background` field). -/
structure FgCommandArgs where
  command : String
  cwd : Option String
  envs : List (String × String)
  timeoutMs : Option Int
  session_id : Option String
deriving DecidableEq, Repr

/-- `ExecuteCommandTool.execute` from `execute-command-tool.ts`: runs the
command in the foreground (default timeout 6000000 ms) and wraps a
`CommandExitError` into a structured failure carrying
`{code: "COMMAND_FAILED", exitCode, stdout, stderr}`; any other thrown
error propagates unchanged. -/
def executeCommandToolExecute (runner : RunOpts → String → RunOutcome)
    (now : Int) (fresh : String) (st : ServerState) (args : FgCommandArgs) :
    Except ToolError Envelope × ServerState × List Effect :=
  let r := getSandbox now fresh st args.session_id
  let sessionId := r.1.2
  let st1 := r.2.1
  let effs := r.2.2 ++ [Effect.runCommand false args.command]
  match runner ⟨args.cwd, args.envs, args.timeoutMs.getD 6000000, false⟩ args.command with
  | .success result =>
    (.ok { stdout := some result.stdout, stderr := some result.stderr,
           session_id := some sessionId }, st1, effs)
  | .exitErr ec so se stk =>
    (.error (.commandFailed
      ⟨"COMMAND_FAILED", ec, so, se, "Command failed with code " ++ toString ec⟩ stk),
     st1, effs)
  | .otherErr e => (.error (.js e), st1, effs)

/-- Name and description of one advertised tool. -/
structure ToolDecl where
  name : String
  description : String
deriving DecidableEq, Repr

/-- The answer of the `ListTools` handler in `index.ts`, in registration
order. -/
def listToolsResult : List ToolDecl := [
  ⟨"run_code",
   "Run python code in a secure remote sandbox by E2B. Using the Jupyter Notebook syntax."⟩,
  ⟨"read_file",
   "Read file content from temporary remote sandbox filesystem (non-persistent)"⟩,
  ⟨"write_file",
   "Write content to temporary remote sandbox filesystem (data cleared after session)"⟩,
  ⟨"execute_command",
   "Execute CLI commands in secure remote sandbox (requires user approval)"⟩,
  ⟨"upload_file",
   "Upload a local file to the remote sandbox (only from allowed paths)"⟩]

/-- Which branch of the `CallTool` handler a tool name selects. -/
inductive DispatchResult where
  | run_code
  | read_file
  | write_file
  | execute_command
  | upload_file
  | unknownTool (code : Int)
deriving DecidableEq, Repr

/-- The name dispatch of the `CallTool` handler in `index.ts`: the
if/else chain over the five registered names, with the final else
returning a `MethodNotFound` error response. -/
def dispatchTool (n : String) : DispatchResult :=
  if n = "run_code" then .run_code
  else if n = "read_file" then .read_file
  else if n = "write_file" then .write_file
  else if n = "execute_command" then .execute_command
  else if n = "upload_file" then .upload_file
  else .unknownTool errorCodeMethodNotFound

/-- Concrete upload environment for evaluating the specification example:
allow-list `/allowed`, a readable local file, and a sandbox whose probe
reports file not found. -/
def exampleUploadEnv : UploadEnv :=
  ⟨some "/allowed", fun _ => .ok "hello", fun _ => .error (jsError "file not found")⟩

/-- Concrete upload environment in which the upload target already
exists in the sandbox (the probe read succeeds). -/
def existingTargetEnv : UploadEnv :=
  ⟨some "/allowed", fun _ => .ok "data", fun _ => .ok "existing"⟩

/-- Concrete download environment with allow-list `/dl` where the local
target does not exist (the access probe fails with an ENOENT error). -/
def exampleDownloadEnv : DownloadEnv :=
  ⟨some "/dl", fun _ => .error (jsError "ENOENT: no such file or directory"),
   fun _ => .ok "bytes"⟩

/-- Server state holding one session `s1` with sandbox handle 7 last
accessed at time 0. -/
def oneSessionState : ServerState := ⟨[("s1", ⟨7, 0⟩)], 8⟩

/-- Upload environment with the upload allow-list variable unset. -/
def noConfigUploadEnv : UploadEnv :=
  ⟨none, fun _ => .ok "data", fun _ => .error (jsError "file not found")⟩

/-- Upload environment with allow-list `/allowed` where reading the
local file fails with a permission error. -/
def readFailUploadEnv : UploadEnv :=
  ⟨some "/allowed", fun _ => .error (jsError "EACCES: permission denied"),
   fun _ => .error (jsError "file not found")⟩

/- Theorems.  Each claim of the specification audit is settled by one
named theorem below; shared helper lemmas come first. -/

/-- The allow-list check succeeds exactly when some configured entry
normalizes to the candidate or to a proper prefix of it followed by the
separator. -/
theorem isPathAllowed_iff (P : PathLib) (l : List String) (np : String) :
    isPathAllowed P l np = true ↔
      ∃ ap ∈ l, np = P.normalize ap ∨ jsStartsWith np (P.normalize ap ++ P.sep) = true := by
  simp [isPathAllowed, List.any_eq_true, Bool.or_eq_true, beq_iff_eq]

/-- Generated session ids are never empty. -/
theorem sess_id_ne_empty (f : String) : ("sess_" ++ f) ≠ "" := by
  intro h
  have h2 : ("sess_" ++ f).data = "".data := congrArg String.data h
  simp [String.data_append] at h2

/-- Reading back the key just written into the session map. -/
theorem mapGet_mapSet_self (m : List (String × Session)) (k : String) (v : Session) :
    mapGet (mapSet m k v) k = some v := by
  induction m with
  | nil => simp [mapSet, mapGet]
  | cons e rest ih =>
    by_cases h : e.1 = k <;> simp [mapSet, mapGet, h, ih]

/-- After any `getSandbox` call the returned session id is non-empty and
maps to the returned handle with `lastAccessed` equal to the call
time. -/
theorem getSandbox_post (now : Int) (fresh : String) (st : ServerState) (sid0 : Option String) :
    (getSandbox now fresh st sid0).1.2 ≠ "" ∧
      mapGet (getSandbox now fresh st sid0).2.1.sessions (getSandbox now fresh st sid0).1.2 =
        some ⟨(getSandbox now fresh st sid0).1.1, now⟩ := by
  match sid0 with
  | none =>
    exact ⟨sess_id_ne_empty fresh, by simp [getSandbox, createSession, mapGet_mapSet_self]⟩
  | some sid =>
    by_cases h : sid = ""
    · simp only [getSandbox, h, if_pos rfl]
      exact ⟨sess_id_ne_empty fresh, by simp [createSession, mapGet_mapSet_self]⟩
    · simp only [getSandbox, if_neg h]
      cases hm : mapGet st.sessions sid with
      | some s => exact ⟨h, by simp [mapGet_mapSet_self]⟩
      | none => exact ⟨h, by simp [createSession, mapGet_mapSet_self]⟩

/-- C4: a `getSandbox` call on a live session id returns the stored
sandbox handle, refreshes `lastAccessed`, and creates nothing; a call on
an unknown truthy id creates exactly one sandbox and stores it under
that id; a call without an id (or with the falsy empty id) creates one
sandbox under a freshly generated id; consequently a second sequenced
call with the returned session id reuses the same handle and creates no
second sandbox. -/
theorem getSandbox_session_reuse (now now2 : Int) (fresh fresh2 : String)
    (st : ServerState) (sid : String) (s : Session) :
    (sid ≠ "" → mapGet st.sessions sid = some s →
      getSandbox now fresh st (some sid) =
        ((s.sandbox, sid), ⟨mapSet st.sessions sid ⟨s.sandbox, now⟩, st.nextHandle⟩, []))
    ∧ (sid ≠ "" → mapGet st.sessions sid = none →
      getSandbox now fresh st (some sid) =
        ((st.nextHandle, sid),
         ⟨mapSet st.sessions sid ⟨st.nextHandle, now⟩, st.nextHandle + 1⟩,
         [Effect.sandboxCreate]))
    ∧ (getSandbox now fresh st none =
        ((st.nextHandle, "sess_" ++ fresh),
         ⟨mapSet st.sessions ("sess_" ++ fresh) ⟨st.nextHandle, now⟩, st.nextHandle + 1⟩,
         [Effect.sandboxCreate]))
    ∧ (∀ sid0 : Option String,
        (getSandbox now2 fresh2 (getSandbox now fresh st sid0).2.1
            (some (getSandbox now fresh st sid0).1.2)).1.1
          = (getSandbox now fresh st sid0).1.1
        ∧ (getSandbox now2 fresh2 (getSandbox now fresh st sid0).2.1
            (some (getSandbox now fresh st sid0).1.2)).2.2 = []) := by
  refine ⟨?_, ?_, ?_, ?_⟩
  · intro h hm
    simp [getSandbox, h, hm]
  · intro h hm
    simp [getSandbox, h, hm, createSession]
  · simp [getSandbox, createSession]
  · intro sid0
    obtain ⟨hne, hget⟩ := getSandbox_post now fresh st sid0
    generalize hg : getSandbox now fresh st sid0 = g at hne hget ⊢
    refine ⟨?_, ?_⟩ <;> simp [getSandbox, hne, hget]

/-- Witness for C4 at concrete inputs: the live session `s1` with handle
7 is reused with its `lastAccessed` refreshed, and a call without an id
on the empty server creates the sandbox with handle 0 under the fresh
id; reuse of a returned id gives back the same handle without a second
creation. -/
theorem getSandbox_session_reuse_witness :
    (getSandbox 5 "f" oneSessionState (some "s1") =
      ((7, "s1"), ⟨[("s1", ⟨7, 5⟩)], 8⟩, []))
    ∧ (getSandbox 5 "f" emptyState none =
      ((0, "sess_f"), ⟨[("sess_f", ⟨0, 5⟩)], 1⟩, [Effect.sandboxCreate]))
    ∧ (getSandbox 9 "g" (getSandbox 5 "f" emptyState none).2.1
        (some (getSandbox 5 "f" emptyState none).1.2)).1.1
        = (getSandbox 5 "f" emptyState none).1.1
    ∧ (getSandbox 9 "g" (getSandbox 5 "f" emptyState none).2.1
        (some (getSandbox 5 "f" emptyState none).1.2)).2.2 = [] := by
  refine ⟨?_, ?_, ?_, ?_⟩
  · exact (getSandbox_session_reuse 5 9 "f" "g" oneSessionState "s1" ⟨7, 0⟩).1
      (by decide) (by decide)
  · exact (getSandbox_session_reuse 5 9 "f" "g" emptyState "x" ⟨0, 0⟩).2.2.1
  · exact ((getSandbox_session_reuse 5 9 "f" "g" emptyState "x" ⟨0, 0⟩).2.2.2 none).1
  · exact ((getSandbox_session_reuse 5 9 "f" "g" emptyState "x" ⟨0, 0⟩).2.2.2 none).2

/-- C5: the cleanup pass runs every 5 minutes with a 30 minute idle
threshold; a session survives the sweep exactly when it was in the map
and its idle time does not exceed the threshold, and the pass logs one
eviction line per expired session. -/
theorem sweep_evicts_exactly_expired :
    CLEANUP_INTERVAL_MS = 5 * 60 * 1000 ∧ SESSION_TIMEOUT = 30 * 60 * 1000 ∧
    ∀ (now : Int) (m : List (String × Session)),
      (∀ sid s, ((sid, s) ∈ (sweep now m).1 ↔
        (sid, s) ∈ m ∧ now - s.lastAccessed ≤ SESSION_TIMEOUT))
      ∧ (sweep now m).2 =
          (m.filter fun e => sessionExpired now e.2).map
            (fun e => "Session " ++ e.1 ++ " expired and cleaned up") := by
  refine ⟨rfl, rfl, ?_⟩
  intro now m
  induction m with
  | nil => simp [sweep]
  | cons e rest ih =>
    constructor
    · intro sid s
      by_cases h : sessionExpired now e.2
      · have hgt : now - e.2.lastAccessed > SESSION_TIMEOUT := by
          simpa [sessionExpired] using h
        simp only [sweep, h, if_pos]
        rw [(ih).1 sid s]
        constructor
        · rintro ⟨hm, hle⟩
          exact ⟨List.mem_cons_of_mem e hm, hle⟩
        · rintro ⟨hm, hle⟩
          rcases List.mem_cons.mp hm with heq | hm2
          · exfalso
            have hs : s = e.2 := congrArg Prod.snd heq
            rw [hs] at hle
            omega
          · exact ⟨hm2, hle⟩
      · have hle : now - e.2.lastAccessed ≤ SESSION_TIMEOUT := by
          simpa [sessionExpired] using h
        have hstep : (sweep now (e :: rest)).1 = e :: (sweep now rest).1 := by
          simp [sweep, h]
        rw [hstep, List.mem_cons, List.mem_cons, (ih).1 sid s]
        constructor
        · rintro (heq | ⟨hm, h2⟩)
          · have hs : s = e.2 := congrArg Prod.snd heq
            exact ⟨Or.inl heq, by rw [hs]; exact hle⟩
          · exact ⟨Or.inr hm, h2⟩
        · rintro ⟨heq | hm, h2⟩
          · exact Or.inl heq
          · exact Or.inr ⟨hm, h2⟩
    · by_cases h : sessionExpired now e.2 <;>
        simp [sweep, h, (ih).2]

/-- C1: an upload or download call proceeds past its path gate exactly
when the configured allow-list is non-empty and the normalized local
path equals some normalized allowed entry or starts with one followed
by the path separator; an unset allow-list or an unmatched path fails
the call with the configured-paths or access-denied error, leaves the
session map unchanged and never reads the local file. -/
theorem upload_download_path_gate (P : PathLib) (uenv : UploadEnv) (denv : DownloadEnv)
    (now : Int) (fresh : String) (st : ServerState) (ua : UploadArgs) (da : DownloadArgs) :
    ((Effect.localRead (P.normalize ua.local_path) ∈ (uploadFileExecute P uenv now fresh st ua).2.2)
      ↔ (splitAllowed uenv.allowedUploadPaths ≠ [] ∧
          ∃ ap ∈ splitAllowed uenv.allowedUploadPaths,
            P.normalize ua.local_path = P.normalize ap ∨
            jsStartsWith (P.normalize ua.local_path) (P.normalize ap ++ P.sep) = true))
    ∧ (splitAllowed uenv.allowedUploadPaths = [] →
        uploadFileExecute P uenv now fresh st ua =
          (.error (jsError "No allowed upload paths configured. Set E2B_ALLOWED_UPLOAD_PATHS environment variable."),
           st, []))
    ∧ (splitAllowed uenv.allowedUploadPaths ≠ [] →
       isPathAllowed P (splitAllowed uenv.allowedUploadPaths) (P.normalize ua.local_path) = false →
        uploadFileExecute P uenv now fresh st ua =
          (.error (jsError ("Access denied: " ++ ua.local_path ++ " is not in allowed upload paths")),
           st, []))
    ∧ (((downloadFileExecute P denv now fresh st da).2.2 ≠ [])
      ↔ (splitAllowed denv.allowedDownloadPaths ≠ [] ∧
          ∃ ap ∈ splitAllowed denv.allowedDownloadPaths,
            P.normalize da.local_path = P.normalize ap ∨
            jsStartsWith (P.normalize da.local_path) (P.normalize ap ++ P.sep) = true))
    ∧ (splitAllowed denv.allowedDownloadPaths = [] →
        downloadFileExecute P denv now fresh st da =
          (.error (jsError "No allowed download paths configured. Set E2B_ALLOWED_PATHS environment variable."),
           st, []))
    ∧ (splitAllowed denv.allowedDownloadPaths ≠ [] →
       isPathAllowed P (splitAllowed denv.allowedDownloadPaths) (P.normalize da.local_path) = false →
        downloadFileExecute P denv now fresh st da =
          (.error (jsError ("Access denied: " ++ da.local_path ++ " is not in allowed download paths")),
           st, [])) := by
  have hchar := isPathAllowed_iff P (splitAllowed uenv.allowedUploadPaths) (P.normalize ua.local_path)
  have hchar2 := isPathAllowed_iff P (splitAllowed denv.allowedDownloadPaths) (P.normalize da.local_path)
  refine ⟨?_, ?_, ?_, ?_, ?_, ?_⟩
  · by_cases hl : splitAllowed uenv.allowedUploadPaths = []
    · simp [uploadFileExecute, hl]
    · by_cases hp : isPathAllowed P (splitAllowed uenv.allowedUploadPaths) (P.normalize ua.local_path)
      · cases hr : uenv.readLocalFile (P.normalize ua.local_path) with
        | error e =>
          simp only [uploadFileExecute, hr]
          rw [if_neg (by simpa [List.length_eq_zero] using hl), if_neg (by simp [hp])]
          simpa [hl] using hchar.mp hp
        | ok c =>
          simp only [uploadFileExecute, hr]
          rw [if_neg (by simpa [List.length_eq_zero] using hl), if_neg (by simp [hp])]
          constructor
          · intro _; exact ⟨hl, hchar.mp hp⟩
          · intro _
            by_cases ho : ua.overwrite = false
            · rw [if_pos ho]
              split <;> simp
            · rw [if_neg ho]
              simp
      · simp only [uploadFileExecute]
        rw [if_neg (by simpa [List.length_eq_zero] using hl), if_pos (by simp [hp])]
        simp only [List.not_mem_nil, false_iff, not_and]
        intro _ hex
        exact absurd (hchar.mpr hex) (by simp [hp])
  · intro hl
    simp [uploadFileExecute, hl]
  · intro hl hp
    simp only [uploadFileExecute]
    rw [if_neg (by simpa [List.length_eq_zero] using hl), if_pos (by simp [hp])]
  · by_cases hl : splitAllowed denv.allowedDownloadPaths = []
    · simp [downloadFileExecute, hl]
    · by_cases hp : isPathAllowed P (splitAllowed denv.allowedDownloadPaths) (P.normalize da.local_path)
      · simp only [downloadFileExecute]
        rw [if_neg (by simpa [List.length_eq_zero] using hl), if_neg (by simp [hp])]
        constructor
        · intro _; exact ⟨hl, hchar2.mp hp⟩
        · intro _
          by_cases ho : da.overwrite = false
          · by_cases hc : (match denv.accessLocalFile (P.normalize da.local_path) with
                | .ok _ => jsError (downloadExistsMsg (P.normalize da.local_path))
                | .error e => e).isError &&
              jsIncludes (match denv.accessLocalFile (P.normalize da.local_path) with
                | .ok _ => jsError (downloadExistsMsg (P.normalize da.local_path))
                | .error e => e).message "ENOENT" <;>
              cases hb : denv.sandboxReadBytes da.sandbox_path <;>
                simp [ho, hc, hb]
          · cases hb : denv.sandboxReadBytes da.sandbox_path <;> simp [ho, hb]
      · simp only [downloadFileExecute]
        rw [if_neg (by simpa [List.length_eq_zero] using hl), if_pos (by simp [hp])]
        simp only [ne_eq, not_true_eq_false, false_iff, not_and]
        intro _ hex
        exact absurd (hchar2.mpr hex) (by simp [hp])
  · intro hl
    simp [downloadFileExecute, hl]
  · intro hl hp
    simp only [downloadFileExecute]
    rw [if_neg (by simpa [List.length_eq_zero] using hl), if_pos (by simp [hp])]

/-- Witness for C1 at concrete inputs: with no upload allow-list
configured the upload fails closed with no effect, and a download
target outside the `/dl` allow-list is denied with no effect. -/
theorem upload_download_path_gate_witness :
    uploadFileExecute posixPath noConfigUploadEnv 0 "f" emptyState
        ⟨"/x/a.txt", none, true, none⟩ =
      (.error (jsError "No allowed upload paths configured. Set E2B_ALLOWED_UPLOAD_PATHS environment variable."),
       emptyState, [])
    ∧ downloadFileExecute posixPath exampleDownloadEnv 0 "f" emptyState
        ⟨"b.txt", "/etc/passwd", false, none⟩ =
      (.error (jsError "Access denied: /etc/passwd is not in allowed download paths"),
       emptyState, []) := by
  constructor
  · exact (upload_download_path_gate posixPath noConfigUploadEnv exampleDownloadEnv 0 "f"
      emptyState ⟨"/x/a.txt", none, true, none⟩ ⟨"b.txt", "/etc/passwd", false, none⟩).2.1 rfl
  · exact (upload_download_path_gate posixPath noConfigUploadEnv exampleDownloadEnv 0 "f"
      emptyState ⟨"/x/a.txt", none, true, none⟩
      ⟨"b.txt", "/etc/passwd", false, none⟩).2.2.2.2.2 (by decide) (by decide)

/-- C10: a failed allow-list check in either tool leaves the session map
and handle supply untouched and never resolves or creates a sandbox,
and an upload whose local read fails likewise stops before the sandbox
is resolved, propagating the read error. -/
theorem gate_failure_no_sandbox (P : PathLib) (uenv : UploadEnv) (denv : DownloadEnv)
    (now : Int) (fresh : String) (st : ServerState) (ua : UploadArgs) (da : DownloadArgs)
    (e : JSError) :
    (splitAllowed uenv.allowedUploadPaths = [] ∨
       isPathAllowed P (splitAllowed uenv.allowedUploadPaths) (P.normalize ua.local_path) = false →
      (uploadFileExecute P uenv now fresh st ua).2.1 = st ∧
      Effect.sandboxCreate ∉ (uploadFileExecute P uenv now fresh st ua).2.2)
    ∧ (splitAllowed uenv.allowedUploadPaths ≠ [] →
       isPathAllowed P (splitAllowed uenv.allowedUploadPaths) (P.normalize ua.local_path) = true →
       uenv.readLocalFile (P.normalize ua.local_path) = .error e →
        uploadFileExecute P uenv now fresh st ua =
          (.error e, st, [Effect.localRead (P.normalize ua.local_path)]))
    ∧ (splitAllowed denv.allowedDownloadPaths = [] ∨
       isPathAllowed P (splitAllowed denv.allowedDownloadPaths) (P.normalize da.local_path) = false →
      (downloadFileExecute P denv now fresh st da).2.1 = st ∧
      Effect.sandboxCreate ∉ (downloadFileExecute P denv now fresh st da).2.2) := by
  refine ⟨?_, ?_, ?_⟩
  · rintro (hl | hp)
    · simp [uploadFileExecute, hl]
    · by_cases hl : splitAllowed uenv.allowedUploadPaths = []
      · simp [uploadFileExecute, hl]
      · simp only [uploadFileExecute]
        rw [if_neg (by simpa [List.length_eq_zero] using hl), if_pos (by simp [hp])]
        simp
  · intro hl hp hr
    simp only [uploadFileExecute, hr]
    rw [if_neg (by simpa [List.length_eq_zero] using hl), if_neg (by simp [hp])]
  · rintro (hl | hp)
    · simp [downloadFileExecute, hl]
    · by_cases hl : splitAllowed denv.allowedDownloadPaths = []
      · simp [downloadFileExecute, hl]
      · simp only [downloadFileExecute]
        rw [if_neg (by simpa [List.length_eq_zero] using hl), if_pos (by simp [hp])]
        simp

/-- Witness for C10 at concrete inputs: a denied upload leaves the state
unchanged with no sandbox creation, and an upload whose local read
fails with a permission error stops with only the read attempt
recorded. -/
theorem gate_failure_no_sandbox_witness :
    ((uploadFileExecute posixPath exampleUploadEnv 0 "f" oneSessionState
        ⟨"/outside/a.txt", none, true, none⟩).2.1 = oneSessionState ∧
      Effect.sandboxCreate ∉ (uploadFileExecute posixPath exampleUploadEnv 0 "f" oneSessionState
        ⟨"/outside/a.txt", none, true, none⟩).2.2)
    ∧ uploadFileExecute posixPath readFailUploadEnv 0 "f" oneSessionState
        ⟨"/allowed/a.txt", none, true, none⟩ =
      (.error (jsError "EACCES: permission denied"), oneSessionState,
       [Effect.localRead "/allowed/a.txt"]) := by
  constructor
  · exact (gate_failure_no_sandbox posixPath exampleUploadEnv exampleDownloadEnv 0 "f"
      oneSessionState ⟨"/outside/a.txt", none, true, none⟩ ⟨"b", "/dl/b", false, none⟩
      (jsError "x")).1 (Or.inr (by decide))
  · exact (gate_failure_no_sandbox posixPath readFailUploadEnv exampleDownloadEnv 0 "f"
      oneSessionState ⟨"/allowed/a.txt", none, true, none⟩ ⟨"b", "/dl/b", false, none⟩
      (jsError "EACCES: permission denied")).2.1 (by decide) (by decide) rfl

/-- A `getSandbox` call records either no effect (session reuse) or
exactly one sandbox creation. -/
theorem getSandbox_effects (now : Int) (fresh : String) (st : ServerState)
    (sid0 : Option String) :
    (getSandbox now fresh st sid0).2.2 = [] ∨
      (getSandbox now fresh st sid0).2.2 = [Effect.sandboxCreate] := by
  match sid0 with
  | none => right; simp [getSandbox, createSession]
  | some sid =>
    by_cases h : sid = ""
    · right; simp [getSandbox, h, createSession]
    · simp only [getSandbox, if_neg h]
      cases hm : mapGet st.sessions sid with
      | some s => left; simp
      | none => right; simp [createSession]

/-- C2 counterexample: with the upload target named `not found`, an
existing target, and `overwrite=false`, the manufactured already-exists
error is swallowed by the probe catch (its message contains the
not-found marker) and the upload succeeds and writes anyway. -/
theorem upload_overwrite_marker_bypass :
    (uploadFileExecute posixPath existingTargetEnv 0 "abc1234" emptyState
        ⟨"/allowed/a.txt", some "not found", false, none⟩).1 =
      .ok ⟨"File uploaded successfully", "/allowed/a.txt", "not found", "sess_abc1234"⟩
    ∧ Effect.sandboxWrite "not found" "data" ∈
        (uploadFileExecute posixPath existingTargetEnv 0 "abc1234" emptyState
          ⟨"/allowed/a.txt", some "not found", false, none⟩).2.2 := by
  constructor
  · rfl
  · decide

/-- C2 (amended): with `overwrite=false` and an existing target the call
fails with the already-exists error and performs no write, provided the
manufactured message does not itself contain the not-found marker (the
target path containing `not found` for upload or `ENOENT` for download
defeats the check, as the counterexample shows); a not-found-shaped
probe failure lets the write proceed, any other probe failure
propagates, no probe happens with `overwrite=true`, and the schema
defaults are `true` for upload and `false` for download. -/
theorem upload_download_overwrite_check (P : PathLib) (uenv : UploadEnv) (denv : DownloadEnv)
    (now : Int) (fresh : String) (st : ServerState) (ua : UploadArgs) (da : DownloadArgs)
    (c c2 : String) (e : JSError) :
    (uploadParseOverwrite none = true ∧ downloadParseOverwrite none = false)
    ∧ (splitAllowed uenv.allowedUploadPaths ≠ [] →
       isPathAllowed P (splitAllowed uenv.allowedUploadPaths) (P.normalize ua.local_path) = true →
       uenv.readLocalFile (P.normalize ua.local_path) = .ok c →
       ua.overwrite = false →
       uenv.sandboxReadFile (resolveSandboxPath P ua.sandbox_path ua.local_path) = .ok c2 →
       jsIncludes (uploadExistsMsg (resolveSandboxPath P ua.sandbox_path ua.local_path))
           "not found" = false →
        (uploadFileExecute P uenv now fresh st ua).1 =
          .error (jsError (uploadExistsMsg (resolveSandboxPath P ua.sandbox_path ua.local_path)))
        ∧ ∀ x, Effect.sandboxWrite (resolveSandboxPath P ua.sandbox_path ua.local_path) x ∉
            (uploadFileExecute P uenv now fresh st ua).2.2)
    ∧ (splitAllowed uenv.allowedUploadPaths ≠ [] →
       isPathAllowed P (splitAllowed uenv.allowedUploadPaths) (P.normalize ua.local_path) = true →
       uenv.readLocalFile (P.normalize ua.local_path) = .ok c →
       ua.overwrite = false →
       uenv.sandboxReadFile (resolveSandboxPath P ua.sandbox_path ua.local_path) = .error e →
       (e.isError && jsIncludes e.message "not found") = false →
        (uploadFileExecute P uenv now fresh st ua).1 = .error e
        ∧ ∀ x, Effect.sandboxWrite (resolveSandboxPath P ua.sandbox_path ua.local_path) x ∉
            (uploadFileExecute P uenv now fresh st ua).2.2)
    ∧ (splitAllowed uenv.allowedUploadPaths ≠ [] →
       isPathAllowed P (splitAllowed uenv.allowedUploadPaths) (P.normalize ua.local_path) = true →
       uenv.readLocalFile (P.normalize ua.local_path) = .ok c →
       ua.overwrite = false →
       uenv.sandboxReadFile (resolveSandboxPath P ua.sandbox_path ua.local_path) = .error e →
       (e.isError && jsIncludes e.message "not found") = true →
        (uploadFileExecute P uenv now fresh st ua).1 =
          .ok ⟨"File uploaded successfully", P.normalize ua.local_path,
               resolveSandboxPath P ua.sandbox_path ua.local_path,
               (getSandbox now fresh st ua.session_id).1.2⟩
        ∧ Effect.sandboxWrite (resolveSandboxPath P ua.sandbox_path ua.local_path) c ∈
            (uploadFileExecute P uenv now fresh st ua).2.2)
    ∧ (splitAllowed uenv.allowedUploadPaths ≠ [] →
       isPathAllowed P (splitAllowed uenv.allowedUploadPaths) (P.normalize ua.local_path) = true →
       uenv.readLocalFile (P.normalize ua.local_path) = .ok c →
       ua.overwrite = true →
        Effect.sandboxRead (resolveSandboxPath P ua.sandbox_path ua.local_path) ∉
          (uploadFileExecute P uenv now fresh st ua).2.2)
    ∧ (splitAllowed denv.allowedDownloadPaths ≠ [] →
       isPathAllowed P (splitAllowed denv.allowedDownloadPaths) (P.normalize da.local_path) = true →
       da.overwrite = false →
       denv.accessLocalFile (P.normalize da.local_path) = .ok () →
       jsIncludes (downloadExistsMsg (P.normalize da.local_path)) "ENOENT" = false →
        (downloadFileExecute P denv now fresh st da).1 =
          .error (jsError (downloadExistsMsg (P.normalize da.local_path)))
        ∧ ∀ x, Effect.localWrite (P.normalize da.local_path) x ∉
            (downloadFileExecute P denv now fresh st da).2.2)
    ∧ (splitAllowed denv.allowedDownloadPaths ≠ [] →
       isPathAllowed P (splitAllowed denv.allowedDownloadPaths) (P.normalize da.local_path) = true →
       da.overwrite = false →
       denv.accessLocalFile (P.normalize da.local_path) = .error e →
       (e.isError && jsIncludes e.message "ENOENT") = false →
        (downloadFileExecute P denv now fresh st da).1 = .error e
        ∧ ∀ x, Effect.localWrite (P.normalize da.local_path) x ∉
            (downloadFileExecute P denv now fresh st da).2.2)
    ∧ (splitAllowed denv.allowedDownloadPaths ≠ [] →
       isPathAllowed P (splitAllowed denv.allowedDownloadPaths) (P.normalize da.local_path) = true →
       da.overwrite = false →
       denv.accessLocalFile (P.normalize da.local_path) = .error e →
       (e.isError && jsIncludes e.message "ENOENT") = true →
       denv.sandboxReadBytes da.sandbox_path = .ok c →
        (downloadFileExecute P denv now fresh st da).1 =
          .ok ⟨"File downloaded successfully", da.sandbox_path, P.normalize da.local_path,
               (getSandbox now fresh st da.session_id).1.2⟩
        ∧ Effect.localWrite (P.normalize da.local_path) c ∈
            (downloadFileExecute P denv now fresh st da).2.2) := by
  refine ⟨⟨rfl, rfl⟩, ?_, ?_, ?_, ?_, ?_, ?_, ?_⟩
  · intro hl hp hr ho hprobe hinc
    simp only [uploadFileExecute, hr]
    rw [if_neg (by simpa [List.length_eq_zero] using hl), if_neg (by simp [hp]), if_pos ho]
    rw [hprobe]
    simp only [jsError, hinc, Bool.and_false, Bool.false_eq_true, if_false]
    refine ⟨by exact trivial, ?_⟩
    intro x
    rcases getSandbox_effects now fresh st ua.session_id with h1 | h1 <;> simp [h1]
  · intro hl hp hr ho hprobe hcond
    simp only [uploadFileExecute, hr]
    rw [if_neg (by simpa [List.length_eq_zero] using hl), if_neg (by simp [hp]), if_pos ho]
    rw [hprobe]
    simp only [hcond, Bool.false_eq_true, if_false]
    refine ⟨by exact trivial, ?_⟩
    intro x
    rcases getSandbox_effects now fresh st ua.session_id with h1 | h1 <;> simp [h1]
  · intro hl hp hr ho hprobe hcond
    simp only [uploadFileExecute, hr]
    rw [if_neg (by simpa [List.length_eq_zero] using hl), if_neg (by simp [hp]), if_pos ho]
    rw [hprobe]
    simp only [hcond, if_true]
    exact ⟨by exact trivial, by simp⟩
  · intro hl hp hr ho
    simp only [uploadFileExecute, hr]
    rw [if_neg (by simpa [List.length_eq_zero] using hl), if_neg (by simp [hp]),
      if_neg (by simp [ho])]
    rcases getSandbox_effects now fresh st ua.session_id with h1 | h1 <;> simp [h1]
  · intro hl hp ho hprobe hinc
    simp only [downloadFileExecute]
    rw [if_neg (by simpa [List.length_eq_zero] using hl), if_neg (by simp [hp]), if_pos ho]
    rw [hprobe]
    simp only [jsError, hinc, Bool.and_false, Bool.false_eq_true, if_false]
    exact ⟨by exact trivial, by intro x; simp⟩
  · intro hl hp ho hprobe hcond
    simp only [downloadFileExecute]
    rw [if_neg (by simpa [List.length_eq_zero] using hl), if_neg (by simp [hp]), if_pos ho]
    rw [hprobe]
    simp only [hcond, Bool.false_eq_true, if_false]
    exact ⟨by exact trivial, by intro x; simp⟩
  · intro hl hp ho hprobe hcond hb
    simp only [downloadFileExecute]
    rw [if_neg (by simpa [List.length_eq_zero] using hl), if_neg (by simp [hp]), if_pos ho]
    rw [hprobe]
    simp only [hcond, if_true, hb]
    exact ⟨by exact trivial, by simp⟩

/-- Witness for C2 at concrete inputs: an existing target `out.txt` with
`overwrite=false` fails with the already-exists error and performs no
write, and a download whose local probe fails with an ENOENT error
proceeds and writes; the schema defaults evaluate to true and false. -/
theorem upload_download_overwrite_check_witness :
    (uploadParseOverwrite none = true ∧ downloadParseOverwrite none = false)
    ∧ (uploadFileExecute posixPath existingTargetEnv 0 "f" emptyState
        ⟨"/allowed/a.txt", some "out.txt", false, none⟩).1 =
      .error (jsError (uploadExistsMsg "out.txt"))
    ∧ Effect.sandboxWrite "out.txt" "data" ∉
        (uploadFileExecute posixPath existingTargetEnv 0 "f" emptyState
          ⟨"/allowed/a.txt", some "out.txt", false, none⟩).2.2
    ∧ (downloadFileExecute posixPath exampleDownloadEnv 0 "f" emptyState
        ⟨"src.txt", "/dl/b.txt", false, none⟩).1 =
      .ok ⟨"File downloaded successfully", "src.txt", "/dl/b.txt", "sess_f"⟩
    ∧ Effect.localWrite "/dl/b.txt" "bytes" ∈
        (downloadFileExecute posixPath exampleDownloadEnv 0 "f" emptyState
          ⟨"src.txt", "/dl/b.txt", false, none⟩).2.2 := by
  have hu := (upload_download_overwrite_check posixPath existingTargetEnv exampleDownloadEnv
    0 "f" emptyState ⟨"/allowed/a.txt", some "out.txt", false, none⟩
    ⟨"src.txt", "/dl/b.txt", false, none⟩ "data" "existing" (jsError "x")).2.1
    (by decide) (by decide) rfl rfl rfl (by decide)
  have hd := (upload_download_overwrite_check posixPath existingTargetEnv exampleDownloadEnv
    0 "f" emptyState ⟨"/allowed/a.txt", some "out.txt", false, none⟩
    ⟨"src.txt", "/dl/b.txt", false, none⟩ "bytes" "existing"
    (jsError "ENOENT: no such file or directory")).2.2.2.2.2.2.2
    (by decide) (by decide) rfl rfl (by decide) rfl
  exact ⟨⟨rfl, rfl⟩, hu.1, hu.2 "data", hd.1, hd.2⟩

/-- C3 counterexample: an `execute_command` invocation whose body throws
gets a response envelope with `isError` false (the key is absent in the
code), no error code and no session id, contradicting the claim that
every tool failure is reported with `isError` true, an InternalError
code and the session id echoed. -/
theorem execute_command_catch_counterexample :
    (executeCommandBranch (fun _ _ => .error (jsError "boom")) 0 "abc" emptyState
        ⟨"false", none, [], none, none, some "s1"⟩).1 =
      { isError := false, errCode := none, errMessage := some "boom", status := none,
        pid := none, stdout := none, stderr := none, content := none, session_id := none } := by
  rfl

/-- C3 (amended): every thrown failure is converted into a normal
response envelope and the transport never sees a raised fault, but the
shapes differ: the `run_code`, `read_file`, `write_file` and
`upload_file` branches return `isError` true with the InternalError
code and echo the raw session id, the shared `ErrorHandler` returns
`isError` true with the InternalError code and no session id, and the
`execute_command` branch returns a plain `{error, stack}` body with no
`isError` flag, no code and no session id. -/
theorem error_envelope_shapes
    (runner : RunOpts → String → Except JSError CommandResult)
    (filesRead : String → Except JSError String)
    (now : Int) (fresh : String) (st : ServerState)
    (ca : CommandArgs) (ra : ReadFileArgs) (e : JSError) :
    (runner ⟨ca.cwd, ca.envs, ca.timeoutMs.getD 60000, ca.background.getD false⟩ ca.command
        = .error e →
      (executeCommandBranch runner now fresh st ca).1 = { errMessage := some e.message })
    ∧ (filesRead ra.path = .error e →
      (readFileBranch filesRead now fresh st ra).1 =
        { isError := true, errCode := some errorCodeInternalError,
          errMessage := some ("Tool execution failed: " ++ e.message),
          session_id := ra.session_id })
    ∧ (errorHandlerHandle e =
        { isError := true, errCode := some errorCodeInternalError,
          errMessage := some ("Tool execution failed: " ++ e.message) }) := by
  refine ⟨?_, ?_, rfl⟩
  · intro hr
    by_cases hb : ca.background.getD false
    · simp only [executeCommandBranch, hb, if_true]
      rw [hb] at hr
      simp [hr]
    · have hb2 : ca.background.getD false = false := by simpa using hb
      simp only [executeCommandBranch, hb2, Bool.false_eq_true, if_false]
      rw [hb2] at hr
      simp [hr]
  · intro hr
    simp [readFileBranch, hr]

/-- Witness for C3 (amended) at concrete inputs: a failing command body
yields the bare message envelope, a failing remote read yields the
InternalError envelope echoing the supplied session id, and the shared
handler yields the InternalError envelope. -/
theorem error_envelope_shapes_witness :
    (executeCommandBranch (fun _ _ => .error (jsError "boom")) 0 "abc" emptyState
        ⟨"false", none, [], none, none, some "s1"⟩).1 = { errMessage := some "boom" }
    ∧ (readFileBranch (fun _ => .error (jsError "gone")) 0 "abc" emptyState
        ⟨"/tmp/x", some "s9"⟩).1 =
      { isError := true, errCode := some errorCodeInternalError,
        errMessage := some ("Tool execution failed: " ++ "gone"),
        session_id := some "s9" }
    ∧ errorHandlerHandle (jsError "bad") =
      { isError := true, errCode := some errorCodeInternalError,
        errMessage := some ("Tool execution failed: " ++ "bad") } := by
  refine ⟨?_, ?_, ?_⟩
  · exact (error_envelope_shapes (fun _ _ => .error (jsError "boom"))
      (fun _ => .error (jsError "gone")) 0 "abc" emptyState
      ⟨"false", none, [], none, none, some "s1"⟩ ⟨"/tmp/x", some "s9"⟩ (jsError "boom")).1 rfl
  · exact (error_envelope_shapes (fun _ _ => .error (jsError "boom"))
      (fun _ => .error (jsError "gone")) 0 "abc" emptyState
      ⟨"false", none, [], none, none, some "s1"⟩ ⟨"/tmp/x", some "s9"⟩ (jsError "gone")).2.1 rfl
  · exact (error_envelope_shapes (fun _ _ => .error (jsError "boom"))
      (fun _ => .error (jsError "gone")) 0 "abc" emptyState
      ⟨"false", none, [], none, none, some "s1"⟩ ⟨"/tmp/x", some "s9"⟩ (jsError "bad")).2.2

/-- C6: the `execute_command` branch invokes the remote runner exactly
once, passing the background flag through; with `background=true` the
successful response carries the started-in-background status, the
process id and the session id; with `background` false or unset the
successful response carries the captured stdout, stderr and session id
of the completed run. -/
theorem execute_command_background_split
    (runner : RunOpts → String → Except JSError CommandResult)
    (now : Int) (fresh : String) (st : ServerState) (args : CommandArgs)
    (res : CommandResult) :
    ((executeCommandBranch runner now fresh st args).2.2 =
        (getSandbox now fresh st args.session_id).2.2 ++
          [Effect.runCommand (args.background.getD false) args.command])
    ∧ (args.background = some true →
       runner ⟨args.cwd, args.envs, args.timeoutMs.getD 60000, true⟩ args.command = .ok res →
        (executeCommandBranch runner now fresh st args).1 =
          { status := some "Command started in background", pid := some res.pid,
            session_id := some (getSandbox now fresh st args.session_id).1.2 })
    ∧ ((args.background = none ∨ args.background = some false) →
       runner ⟨args.cwd, args.envs, args.timeoutMs.getD 60000, false⟩ args.command = .ok res →
        (executeCommandBranch runner now fresh st args).1 =
          { stdout := some res.stdout, stderr := some res.stderr,
            session_id := some (getSandbox now fresh st args.session_id).1.2 }) := by
  refine ⟨?_, ?_, ?_⟩
  · by_cases hb : args.background.getD false
    · simp only [executeCommandBranch, hb, if_true]
      split <;> simp [hb]
    · have hb2 : args.background.getD false = false := by simpa using hb
      simp only [executeCommandBranch, hb2, Bool.false_eq_true, if_false]
      split <;> simp [hb2]
  · intro hb hr
    have hb2 : args.background.getD false = true := by rw [hb]; rfl
    simp only [executeCommandBranch, hb2, if_true]
    simp [hr]
  · intro hb hr
    have hb2 : args.background.getD false = false := by
      rcases hb with h | h <;> rw [h] <;> rfl
    simp only [executeCommandBranch, hb2, Bool.false_eq_true, if_false]
    simp [hr]

/-- Witness for C6 at concrete inputs: a background run of `sleep 99`
returns the status line with pid 42 before any output exists, and a
foreground run of `ls` returns the captured output; the single runner
invocation carries the respective background flag. -/
theorem execute_command_background_split_witness :
    ((executeCommandBranch (fun _ _ => .ok ⟨"", "", 42⟩) 0 "w" emptyState
        ⟨"sleep 99", none, [], none, some true, none⟩).2.2 =
      (getSandbox 0 "w" emptyState none).2.2 ++ [Effect.runCommand true "sleep 99"])
    ∧ (executeCommandBranch (fun _ _ => .ok ⟨"", "", 42⟩) 0 "w" emptyState
        ⟨"sleep 99", none, [], none, some true, none⟩).1 =
      { status := some "Command started in background", pid := some 42,
        session_id := some (getSandbox 0 "w" emptyState none).1.2 }
    ∧ (executeCommandBranch (fun _ _ => .ok ⟨"file1", "", 7⟩) 0 "w" emptyState
        ⟨"ls", none, [], none, none, none⟩).1 =
      { stdout := some "file1", stderr := some "",
        session_id := some (getSandbox 0 "w" emptyState none).1.2 } := by
  refine ⟨?_, ?_, ?_⟩
  · exact (execute_command_background_split (fun _ _ => .ok ⟨"", "", 42⟩) 0 "w" emptyState
      ⟨"sleep 99", none, [], none, some true, none⟩ ⟨"", "", 42⟩).1
  · exact (execute_command_background_split (fun _ _ => .ok ⟨"", "", 42⟩) 0 "w" emptyState
      ⟨"sleep 99", none, [], none, some true, none⟩ ⟨"", "", 42⟩).2.1 rfl rfl
  · exact (execute_command_background_split (fun _ _ => .ok ⟨"file1", "", 7⟩) 0 "w" emptyState
      ⟨"ls", none, [], none, none, none⟩ ⟨"file1", "", 7⟩).2.2 (Or.inl rfl) rfl

/-- C7: in `ExecuteCommandTool.execute` a `CommandExitError` from the
remote runner is wrapped into a structured failure carrying the code
`COMMAND_FAILED`, the actual exit code and the captured stdout and
stderr (keeping the original stack), while any other thrown error
propagates unchanged. -/
theorem execute_command_nonzero_exit_wrapped
    (runner : RunOpts → String → RunOutcome) (now : Int) (fresh : String) (st : ServerState)
    (args : FgCommandArgs) (ec : Int) (so se stk : String) (e : JSError) :
    (runner ⟨args.cwd, args.envs, args.timeoutMs.getD 6000000, false⟩ args.command
        = .exitErr ec so se stk →
      (executeCommandToolExecute runner now fresh st args).1 =
        .error (.commandFailed
          ⟨"COMMAND_FAILED", ec, so, se, "Command failed with code " ++ toString ec⟩ stk))
    ∧ (runner ⟨args.cwd, args.envs, args.timeoutMs.getD 6000000, false⟩ args.command
        = .otherErr e →
      (executeCommandToolExecute runner now fresh st args).1 = .error (.js e)) := by
  constructor
  · intro hr
    simp [executeCommandToolExecute, hr]
  · intro hr
    simp [executeCommandToolExecute, hr]

/-- Witness for C7 at concrete inputs: running `false` against a runner
that reports exit code 1 produces the wrapped `COMMAND_FAILED` failure
with exit code 1, and a timeout error propagates unchanged. -/
theorem execute_command_nonzero_exit_wrapped_witness :
    (executeCommandToolExecute (fun _ _ => .exitErr 1 "" "" "trace") 0 "w" emptyState
        ⟨"false", none, [], none, none⟩).1 =
      .error (.commandFailed ⟨"COMMAND_FAILED", 1, "", "", "Command failed with code 1"⟩ "trace")
    ∧ (executeCommandToolExecute (fun _ _ => .otherErr (jsError "timeout")) 0 "w" emptyState
        ⟨"sleep 9", none, [], none, none⟩).1 = .error (.js (jsError "timeout")) := by
  constructor
  · exact (execute_command_nonzero_exit_wrapped (fun _ _ => .exitErr 1 "" "" "trace") 0 "w"
      emptyState ⟨"false", none, [], none, none⟩ 1 "" "" "trace" (jsError "x")).1 rfl
  · exact (execute_command_nonzero_exit_wrapped (fun _ _ => .otherErr (jsError "timeout")) 0 "w"
      emptyState ⟨"sleep 9", none, [], none, none⟩ 0 "" "" "" (jsError "timeout")).2 rfl

/-- C8: the upload target is resolved by mapping the literal `"null"` to
null and the literal `"\"\""` to the empty string, then defaulting any
still-unset (JS-falsy) value to the base filename of `local_path`; any
other non-empty string is kept verbatim; on the specification example
the upload succeeds and returns the resolved target `a.txt` with the
normalized local path and the session id. -/
theorem sandbox_path_resolution (P : PathLib) (lp s : String) :
    resolveSandboxPath P (some "null") lp = P.basename lp
    ∧ resolveSandboxPath P (some "\"\"") lp = P.basename lp
    ∧ resolveSandboxPath P none lp = P.basename lp
    ∧ resolveSandboxPath P (some "") lp = P.basename lp
    ∧ (s ≠ "null" → s ≠ "\"\"" → s ≠ "" → resolveSandboxPath P (some s) lp = s)
    ∧ (uploadFileExecute posixPath exampleUploadEnv 0 "abc1234" emptyState
        ⟨"/allowed/a.txt", none, true, none⟩).1 =
      .ok ⟨"File uploaded successfully", "/allowed/a.txt", "a.txt", "sess_abc1234"⟩ := by
  refine ⟨rfl, ?_, rfl, rfl, ?_, ?_⟩
  · simp [resolveSandboxPath]
  · intro h1 h2 h3
    simp [resolveSandboxPath, h1, h2, h3]
  · rfl

/-- Witness for C8 at concrete inputs: the three sentinel and default
cases resolve to the basename, a plain target is kept, and the example
call returns the resolved target. -/
theorem sandbox_path_resolution_witness :
    resolveSandboxPath posixPath (some "null") "/allowed/a.txt" = "a.txt"
    ∧ resolveSandboxPath posixPath (some "\"\"") "/allowed/a.txt" = "a.txt"
    ∧ resolveSandboxPath posixPath none "/allowed/a.txt" = "a.txt"
    ∧ resolveSandboxPath posixPath (some "kept.txt") "/allowed/a.txt" = "kept.txt"
    ∧ (uploadFileExecute posixPath exampleUploadEnv 0 "abc1234" emptyState
        ⟨"/allowed/a.txt", none, true, none⟩).1 =
      .ok ⟨"File uploaded successfully", "/allowed/a.txt", "a.txt", "sess_abc1234"⟩ := by
  have h := sandbox_path_resolution posixPath "/allowed/a.txt" "kept.txt"
  exact ⟨h.1, h.2.1, h.2.2.1, h.2.2.2.2.1 (by decide) (by decide) (by decide), h.2.2.2.2.2⟩

/-- C9 counterexample: the `ListTools` answer of `index.ts` advertises
only five tools and does not include `download_file`, and dispatching
the name `download_file` falls through to the MethodNotFound branch,
contradicting the claim that all six tools are advertised and
dispatched. -/
theorem list_tools_download_file_missing :
    listToolsResult.map ToolDecl.name =
      ["run_code", "read_file", "write_file", "execute_command", "upload_file"]
    ∧ ("download_file" ∈ listToolsResult.map ToolDecl.name) = False
    ∧ dispatchTool "download_file" = .unknownTool errorCodeMethodNotFound := by
  refine ⟨rfl, by simp [listToolsResult], rfl⟩

/-- C9 (amended): the server advertises the five tools `run_code`,
`read_file`, `write_file`, `execute_command` and `upload_file` with
their names and descriptions, dispatches exactly those names to their
branches, and answers any other name — including `download_file` —
with a MethodNotFound-class error response. -/
theorem list_tools_and_dispatch :
    listToolsResult.map ToolDecl.name =
      ["run_code", "read_file", "write_file", "execute_command", "upload_file"]
    ∧ (∀ n : String,
        dispatchTool n = .unknownTool errorCodeMethodNotFound ↔
          n ∉ listToolsResult.map ToolDecl.name)
    ∧ dispatchTool "run_code" = .run_code
    ∧ dispatchTool "read_file" = .read_file
    ∧ dispatchTool "write_file" = .write_file
    ∧ dispatchTool "execute_command" = .execute_command
    ∧ dispatchTool "upload_file" = .upload_file := by
  refine ⟨rfl, ?_, rfl, rfl, rfl, rfl, rfl⟩
  intro n
  by_cases h1 : n = "run_code"
  · simp [dispatchTool, listToolsResult, h1]
  · by_cases h2 : n = "read_file"
    · simp [dispatchTool, listToolsResult, h1, h2]
    · by_cases h3 : n = "write_file"
      · simp [dispatchTool, listToolsResult, h1, h2, h3]
      · by_cases h4 : n = "execute_command"
        · simp [dispatchTool, listToolsResult, h1, h2, h3, h4]
        · by_cases h5 : n = "upload_file"
          · simp [dispatchTool, listToolsResult, h1, h2, h3, h4, h5]
          · simp [dispatchTool, listToolsResult, h1, h2, h3, h4, h5]

end MCP
